import Mathlib

/-!
Verification of the `panel4all` poll-results analysis library
(`src/panel4all/pollresults.py`).

The embedding models Python dictionaries as association lists with
Python-dict semantics: inserting an existing key replaces its value in
place (keeping its position), inserting a fresh key appends it.
Pandas rows (Series) are modelled as association lists from column name
to integer value; a missing association models a missing column / NaN.
Fallible Python code (KeyError, IndexError, ValueError, the unbound
local in the forward-fill loop) is modelled with `Option` / `Except`.
-/

namespace Panel4All

/-- Lookup in a Python-style dict modelled as an association list:
the first binding of the key wins (dicts never hold duplicate keys). -/
def dictGet? {α β : Type} [DecidableEq α] (d : List (α × β)) (k : α) : Option β :=
  match d with
  | [] => none
  | p :: rest => if p.1 = k then some p.2 else dictGet? rest k

/-- Python-dict insertion: replace the value of an existing key in place,
otherwise append the new binding at the end. -/
def dictInsert {α β : Type} [DecidableEq α] (d : List (α × β)) (k : α) (v : β) :
    List (α × β) :=
  match d with
  | [] => [(k, v)]
  | p :: rest => if p.1 = k then (k, v) :: rest else p :: dictInsert rest k v

/-- Keys of a dict, in insertion order (`dict.keys()` in Python). -/
def dictKeys {α β : Type} (d : List (α × β)) : List α :=
  d.map Prod.fst

/-- A question code (a string column name / variable name). -/
abbrev QCode := String

/-- A raw answer code, numeric in the exports. -/
abbrev ACode := Int

/-- A human-readable label. -/
abbrev Label := String

/-- One row of a results table: a pandas Series, modelled as an association
list from column name to integer value; an absent key models NaN / a
missing column. -/
abbrev Row := List (String × Int)

/-- One row of the variable-values table: leading question-code cell
(`none` models a blank/NaN cell), answer code, answer label. -/
structure VarValuesRow where
  question_code : Option QCode
  answer_code : ACode
  answer_label : Label
  deriving DecidableEq, Repr

/-- Errors raised by the Python code, as an explicit error type:
`KeyError` on a string or integer key, `IndexError` on `voter_ids`,
the `ValueError` raised by `get_voter_answer`, the `AttributeError`
from calling `.keys()` on a plain (single) answer, and the `KeyError`
raised when the median of a column has no entry in the answer-label map. -/
inductive PollError where
  | keyNotFound (key : String)
  | answerKeyNotFound (key : ACode)
  | voterNotFound (voter_id : Int)
  | indexOutOfRange (voter_index : Nat)
  | cannotFindAnswer (voter_id : Int) (question_code : QCode)
  | notMultiAnswer (question_code : QCode)
  | medianKeyNotFound (question_code : QCode)
  deriving DecidableEq, Repr

/-- The loop of `PollResults.__init__` over the variable-values table
(pollresults.py lines 31-42): a stateful pass keeping the most recently
seen non-blank question code and writing
`map[question_code][answer_code] = answer_label` into a dict of dicts.
`current` is the loop variable `question_code`; a blank leading cell
before any non-blank one leaves it unbound, which raises in Python and
is modelled by `none`. -/
def buildAnswerMapAux (rows : List VarValuesRow) (current : Option QCode)
    (acc : List (QCode × List (ACode × Label))) :
    Option (List (QCode × List (ACode × Label))) :=
  match rows with
  | [] => some acc
  | r :: rest =>
    match r.question_code, current with
    | some q, _ =>
      buildAnswerMapAux rest (some q)
        (dictInsert acc q (dictInsert ((dictGet? acc q).getD []) r.answer_code r.answer_label))
    | none, some q =>
      buildAnswerMapAux rest (some q)
        (dictInsert acc q (dictInsert ((dictGet? acc q).getD []) r.answer_code r.answer_label))
    | none, none => none

/-- Builds `map_question_code_to_map_answer_code_to_label` from the
variable-values rows, starting with the loop variable unbound and an
empty `defaultdict(dict)`. -/
def buildAnswerMap (rows : List VarValuesRow) :
    Option (List (QCode × List (ACode × Label))) :=
  buildAnswerMapAux rows none []

/-- The dict comprehension building `map_voter_id_to_closed_answers`:
each row is keyed by its `id` column; a row with a missing/NaN `id`
raises in Python, modelled by `none`. -/
def buildVoterIndexAux (rows : List Row) (acc : List (Int × Row)) :
    Option (List (Int × Row)) :=
  match rows with
  | [] => some acc
  | r :: rest =>
    match dictGet? r "id" with
    | none => none
    | some i => buildVoterIndexAux rest (dictInsert acc i r)

/-- Builds the voter index from the closed-questions result rows. -/
def buildVoterIndex (rows : List Row) : Option (List (Int × Row)) :=
  buildVoterIndexAux rows []

/-- The in-memory index built by `PollResults.__init__`: the derived
mappings the query methods read.  Open-question data is not needed by
any verified operation and is omitted. -/
structure PollResults where
  map_question_code_to_label : List (QCode × Label)
  map_question_code_to_map_answer_code_to_label : List (QCode × List (ACode × Label))
  results_closed_questions : List Row
  map_voter_id_to_closed_answers : List (Int × Row)
  voter_ids : List Int

/-- The answer returned by `get_voter_answer`: either a translated label
(single-answer question) or a dict from sub-question label to the
voter's raw value (multi-answer question). -/
inductive Answer where
  | single (label : Label)
  | multi (m : List (Label × Int))
  deriving DecidableEq, Repr

/-- Translation of `PollResults.voter_id` (pollresults.py lines 69-78):
the explicit voter id takes precedence; otherwise the positional index
into `voter_ids` is used (IndexError when out of range).  Python's
defaults are `voter_index=0`, `voter_id=None`. -/
def PollResults.voter_id (pr : PollResults) (voter_index : Nat) (vid : Option Int) :
    Except PollError Int :=
  match vid with
  | some v => .ok v
  | none =>
    match pr.voter_ids.get? voter_index with
    | some v => .ok v
    | none => .error (.indexOutOfRange voter_index)

/-- Python's `s.startswith(p)`: a literal string-prefix test, modelled
on the underlying character lists. -/
def strStartsWith (s p : String) : Bool :=
  p.data.isPrefixOf s.data

/-- Translation of `PollResults.subquestion_codes` (pollresults.py lines
80-84): all known question codes having `question_code` as a string
prefix, in the insertion order of `map_question_code_to_label`. -/
def PollResults.subquestion_codes (pr : PollResults) (question_code : QCode) :
    List QCode :=
  (dictKeys pr.map_question_code_to_label).filter
    (fun q => strStartsWith q question_code)

/-- The dict comprehension in `get_voter_answer`'s multi-answer branch:
`{map_question_code_to_label[code]: voter_closed_answers[code] for code
in subquestion_codes}`, evaluated left to right; a sub-question code
missing from the voter's row raises KeyError. -/
def buildMultiAux (labels : List (QCode × Label)) (row : Row)
    (codes : List QCode) (acc : List (Label × Int)) :
    Except PollError (List (Label × Int)) :=
  match codes with
  | [] => .ok acc
  | c :: rest =>
    match dictGet? labels c with
    | none => .error (.keyNotFound c)
    | some label =>
      match dictGet? row c with
      | none => .error (.keyNotFound c)
      | some v => buildMultiAux labels row rest (dictInsert acc label v)

/-- Translation of `PollResults.get_voter_answer` (pollresults.py lines
86-106): resolve the voter, fetch the voter's closed-answers row
(KeyError when the id is absent), then dispatch: a direct column is a
single-answer question whose raw code is translated through the nested
answer-label map; otherwise a non-empty sub-question list gives a
multi-answer dict; otherwise a ValueError. -/
def PollResults.get_voter_answer (pr : PollResults) (question_code : QCode)
    (voter_index : Nat) (vid : Option Int) : Except PollError Answer :=
  match pr.voter_id voter_index vid with
  | .error e => .error e
  | .ok voter_id =>
    match dictGet? pr.map_voter_id_to_closed_answers voter_id with
    | none => .error (.voterNotFound voter_id)
    | some voter_closed_answers =>
      match dictGet? voter_closed_answers question_code with
      | some voter_answer =>
        match dictGet? pr.map_question_code_to_map_answer_code_to_label question_code with
        | none => .error (.keyNotFound question_code)
        | some inner =>
          match dictGet? inner voter_answer with
          | none => .error (.answerKeyNotFound voter_answer)
          | some label => .ok (.single label)
      | none =>
        let subq := pr.subquestion_codes question_code
        if subq.length > 0 then
          match buildMultiAux pr.map_question_code_to_label voter_closed_answers subq [] with
          | .error e => .error e
          | .ok m => .ok (.multi m)
        else
          .error (.cannotFindAnswer voter_id question_code)

/-- Translation of `PollResults.get_voter_answer_rank` (pollresults.py
lines 108-119): `sorted(map.keys(), key=map.__getitem__)` — a stable
ascending sort of the multi-answer dict's keys by their values,
modelled by a stable insertion sort of the bindings by value followed
by a projection to the keys.  Calling it on a single-answer question
applies `.keys()` to a plain value, which raises in Python. -/
def PollResults.get_voter_answer_rank (pr : PollResults) (question_code : QCode)
    (voter_index : Nat) (vid : Option Int) : Except PollError (List Label) :=
  match pr.voter_id voter_index vid with
  | .error e => .error e
  | .ok voter_id =>
    match pr.get_voter_answer question_code 0 (some voter_id) with
    | .error e => .error e
    | .ok (.single _) => .error (.notMultiAnswer question_code)
    | .ok (.multi m) =>
      .ok ((m.insertionSort (fun a b => a.2 ≤ b.2)).map Prod.fst)

/-- Translation of `PollResults.get_voter_answer_approval` (pollresults.py
lines 121-132): the set comprehension
`{label for label, answer in map.items() if answer > 0}`. -/
def PollResults.get_voter_answer_approval (pr : PollResults) (question_code : QCode)
    (voter_index : Nat) (vid : Option Int) : Except PollError (Finset Label) :=
  match pr.voter_id voter_index vid with
  | .error e => .error e
  | .ok voter_id =>
    match pr.get_voter_answer question_code 0 (some voter_id) with
    | .error e => .error e
    | .ok (.single _) => .error (.notMultiAnswer question_code)
    | .ok (.multi m) =>
      .ok ((m.filter (fun p => p.2 > 0)).map Prod.fst).toFinset

/-- Rounding to two decimal places, as pandas' `.round(2)` (machine
floats are modelled by exact rationals). -/
def round2 (x : ℚ) : ℚ :=
  (round (x * 100) : ℤ) / 100

/-- Median of a list of integers, as pandas' `Series.median` with NaN
skipped: middle element of the sorted values for odd length, mean of
the two middle elements for even length, NaN (`none`) when empty. -/
def medianQ (xs : List Int) : Option ℚ :=
  let s := xs.insertionSort (fun a b => a ≤ b)
  if s.length = 0 then none
  else if s.length % 2 = 1 then
    (s.get? (s.length / 2)).map (fun a => (a : ℚ))
  else
    match s.get? (s.length / 2 - 1), s.get? (s.length / 2) with
    | some a, some b => some ((a + b : ℚ) / 2)
    | _, _ => none

/-- The non-NaN values of column `question_code` over a list of rows
(pandas drops NaN both as group keys and when taking the median). -/
def columnValues (rows : List Row) (question_code : QCode) : List Int :=
  rows.filterMap (fun r => dictGet? r question_code)

/-- The series `(results.groupby(question_code).count()["id"] /
len(results) * 100).round(2)` in `frequency_dict`: one entry per
distinct value of the column (groupby sorts its keys and drops NaN),
giving that group's row count as a percentage of all filtered rows,
rounded to two decimals. -/
def frequencySeries (rows : List Row) (question_code : QCode) :
    List (ACode × ℚ) :=
  let values := columnValues rows question_code
  let keys := values.dedup.insertionSort (fun a b => a ≤ b)
  keys.map (fun v =>
    (v, round2 ((values.count v : ℚ) / (rows.length : ℚ) * 100)))

/-- The dict returned by `frequency_dict`: the optional title stored
under the literal key in the source, the answer-code→percentage
entries, and the label of the question's median value. -/
structure FreqDict where
  title : Option String
  freqs : List (ACode × ℚ)
  median_label : Label
  deriving DecidableEq, Repr

/-- Translation of `PollResults.frequency_dict` (pollresults.py lines
188-203).  The pandas query string is modelled as a row predicate.
The answer-label map for the question is fetched first (KeyError when
absent); the filtered rows give the frequency series; finally the
median of the question's column is translated through the answer-label
map — a KeyError (modelled as `medianKeyNotFound`) when the median is
NaN (empty column) or not an answer code of the question. -/
def PollResults.frequency_dict (pr : PollResults) (question_code : QCode)
    (query : Option (Row → Bool)) (title : Option String) :
    Except PollError FreqDict :=
  match dictGet? pr.map_question_code_to_map_answer_code_to_label question_code with
  | none => .error (.keyNotFound question_code)
  | some map_answer_code_to_label =>
    let results :=
      match query with
      | none => pr.results_closed_questions
      | some p => pr.results_closed_questions.filter p
    let freqs := frequencySeries results question_code
    match medianQ (columnValues results question_code) with
    | none => .error (.medianKeyNotFound question_code)
    | some med =>
      if med.den = 1 then
        match dictGet? map_answer_code_to_label med.num with
        | none => .error (.medianKeyNotFound question_code)
        | some label => .ok ⟨title, freqs, label⟩
      else .error (.medianKeyNotFound question_code)

/-- Modelled from the spec: the forward-fill reading of the
variable-values table — each row is resolved to the most recently seen
non-blank question code, a blank cell before any non-blank one being a
load error.  This is the spec's description of the loop, to be compared
with the source translation `buildAnswerMapAux`. -/
def forwardFillSpec (rows : List VarValuesRow) (current : Option QCode) :
    Option (List (QCode × ACode × Label)) :=
  match rows with
  | [] => some []
  | r :: rest =>
    match r.question_code, current with
    | some q, _ =>
      (forwardFillSpec rest (some q)).map
        (fun t => (q, r.answer_code, r.answer_label) :: t)
    | none, some q =>
      (forwardFillSpec rest (some q)).map
        (fun t => (q, r.answer_code, r.answer_label) :: t)
    | none, none => none

/-- One write `map[q][ac] = label` into the dict of dicts, for a
resolved variable-values row. -/
def groupStep (acc : List (QCode × List (ACode × Label)))
    (t : QCode × ACode × Label) : List (QCode × List (ACode × Label)) :=
  dictInsert acc t.1 (dictInsert ((dictGet? acc t.1).getD []) t.2.1 t.2.2)

/-- Grouping a list of resolved rows into the dict of dicts. -/
def groupFold (acc : List (QCode × List (ACode × Label)))
    (res : List (QCode × ACode × Label)) : List (QCode × List (ACode × Label)) :=
  res.foldl groupStep acc

/-- Lookup through the dict of dicts. -/
def innerGet (m : List (QCode × List (ACode × Label))) (q : QCode) (ac : ACode) :
    Option Label :=
  (dictGet? m q).bind (fun inner => dictGet? inner ac)

/-- The label of the last resolved row carrying question code `q` and
answer code `ac` (a later duplicate overwrites an earlier one). -/
def lastBinding (res : List (QCode × ACode × Label)) (q : QCode) (ac : ACode) :
    Option Label :=
  dictGet? (((res.filter (fun t => t.1 = q)).map (fun t => (t.2.1, t.2.2))).reverse) ac

/-- The human labels of the sub-questions of a question, in sub-question
order (skipping codes without a label entry, which cannot occur since
sub-question codes are drawn from the label map's keys). -/
def PollResults.subquestion_labels (pr : PollResults) (question_code : QCode) :
    List Label :=
  (pr.subquestion_codes question_code).filterMap
    (fun c => dictGet? pr.map_question_code_to_label c)

/-- The label/value pairs produced by the multi-answer dict
comprehension, when every lookup succeeds. -/
def multiPairs (labels : List (QCode × Label)) (row : Row) (codes : List QCode) :
    List (Label × Int) :=
  codes.filterMap
    (fun c => (dictGet? labels c).bind
      (fun l => (dictGet? row c).map (fun v => (l, v))))

/-- Scenario data: the variable-values rows
`(Q2,1,PartyA)` and `(,2,PartyB)` from the spec. -/
def varValuesEx : List VarValuesRow :=
  [⟨some "Q2", 1, "PartyA"⟩, ⟨none, 2, "PartyB"⟩]

/-- Scenario data: a closed-questions table with voter id 300 holding
`Q2 = 2`. -/
def closedRowsEx1 : List Row :=
  [[("id", 300), ("Q2", 2)]]

/-- Scenario index: a `PollResults` built from the scenario tables. -/
def prEx1 : PollResults :=
  { map_question_code_to_label := [("Q2", "Which party?")]
  , map_question_code_to_map_answer_code_to_label := (buildAnswerMap varValuesEx).getD []
  , results_closed_questions := closedRowsEx1
  , map_voter_id_to_closed_answers := (buildVoterIndex closedRowsEx1).getD []
  , voter_ids := dictKeys ((buildVoterIndex closedRowsEx1).getD []) }

/-- Scenario data: voter 300's row for the ranking question
`Q6_1=2, Q6_2=1, Q6_3=3`. -/
def rowEx4 : Row :=
  [("id", 300), ("Q6_1", 2), ("Q6_2", 1), ("Q6_3", 3)]

/-- Scenario index for the ranking question with labels X, Y, Z. -/
def prEx4 : PollResults :=
  { map_question_code_to_label := [("Q6_1", "X"), ("Q6_2", "Y"), ("Q6_3", "Z")]
  , map_question_code_to_map_answer_code_to_label := []
  , results_closed_questions := [rowEx4]
  , map_voter_id_to_closed_answers := (buildVoterIndex [rowEx4]).getD []
  , voter_ids := [300] }

/-- Scenario data: voter 300's row for the approval question
`Q3_1=0, Q3_2=1, Q3_3=1`. -/
def rowEx5 : Row :=
  [("id", 300), ("Q3_1", 0), ("Q3_2", 1), ("Q3_3", 1)]

/-- Scenario index for the approval question with labels X, Y, Z. -/
def prEx5 : PollResults :=
  { map_question_code_to_label := [("Q3_1", "X"), ("Q3_2", "Y"), ("Q3_3", "Z")]
  , map_question_code_to_map_answer_code_to_label := []
  , results_closed_questions := [rowEx5]
  , map_voter_id_to_closed_answers := (buildVoterIndex [rowEx5]).getD []
  , voter_ids := [300] }

/-- Scenario data: a population in which the religion==1 subgroup holds
four rows, two of which answered code 1 for Q2 (a 50% frequency), and
one row is outside the subgroup. -/
def closedRowsEx6 : List Row :=
  [[("id", 0), ("religion", 1), ("Q2", 1)],
   [("id", 1), ("religion", 1), ("Q2", 1)],
   [("id", 2), ("religion", 1), ("Q2", 3)],
   [("id", 3), ("religion", 1), ("Q2", 3)],
   [("id", 4), ("religion", 2), ("Q2", 2)]]

/-- Scenario index for the frequency computation. -/
def prEx6 : PollResults :=
  { map_question_code_to_label := [("Q2", "Which party?")]
  , map_question_code_to_map_answer_code_to_label :=
      [("Q2", [(1, "PartyA"), (2, "PartyB"), (3, "PartyC")])]
  , results_closed_questions := closedRowsEx6
  , map_voter_id_to_closed_answers := []
  , voter_ids := [] }

/-- The filter predicate `religion == 1` over a row. -/
def religionFilter : Row → Bool :=
  fun r => dictGet? r "religion" == some 1

/-- Scenario data: two closed-question rows with ids 300 and 301. -/
def closedRowsEx8 : List Row :=
  [[("id", 300), ("Q2", 1)], [("id", 301), ("Q2", 2)]]

/-- Scenario index with two voters in load order 300, 301. -/
def prEx8 : PollResults :=
  { map_question_code_to_label := [("Q2", "Which party?")]
  , map_question_code_to_map_answer_code_to_label := []
  , results_closed_questions := closedRowsEx8
  , map_voter_id_to_closed_answers := (buildVoterIndex closedRowsEx8).getD []
  , voter_ids := dictKeys ((buildVoterIndex closedRowsEx8).getD []) }

/-- Scenario index with question codes Q1 and Q10, where `Q1` is a
literal string prefix of the unrelated code `Q10`. -/
def prEx9 : PollResults :=
  { map_question_code_to_label := [("Q1", "First"), ("Q10", "Tenth")]
  , map_question_code_to_map_answer_code_to_label := []
  , results_closed_questions := []
  , map_voter_id_to_closed_answers := []
  , voter_ids := [] }

/-- The frequency dict of the religion==1 subgroup in the population of
100: codes 1 and 3 each at 50%, median 2 labelled PartyB. -/
def fdEx6 : FreqDict :=
  ⟨none, [(1, 50), (3, 50)], "PartyB"⟩

theorem dictGet?_insert {α β : Type} [DecidableEq α]
    (d : List (α × β)) (k k' : α) (v : β) :
    dictGet? (dictInsert d k v) k' = if k' = k then some v else dictGet? d k' := by
  induction d with
  | nil => simp [dictInsert, dictGet?, eq_comm]
  | cons p rest ih =>
    by_cases hpk : p.1 = k
    · subst hpk
      by_cases hk' : k' = p.1
      · simp [dictInsert, dictGet?, hk']
      · simp [dictInsert, dictGet?, hk', Ne.symm hk']
    · by_cases hk' : p.1 = k'
      · subst hk'
        simp [dictInsert, dictGet?, hpk, Ne.symm hpk]
      · simp [dictInsert, dictGet?, hpk, hk', ih]

theorem mem_dictKeys_insert {α β : Type} [DecidableEq α]
    (d : List (α × β)) (k k' : α) (v : β) :
    k' ∈ dictKeys (dictInsert d k v) ↔ k' = k ∨ k' ∈ dictKeys d := by
  induction d with
  | nil => simp [dictInsert, dictKeys]
  | cons p rest ih =>
    by_cases hpk : p.1 = k
    · subst hpk
      simp [dictInsert, dictKeys, eq_comm]
    · simp [dictInsert, dictKeys, hpk] at ih ⊢
      tauto

theorem dictGet?_isSome_iff_mem {α β : Type} [DecidableEq α]
    (d : List (α × β)) (k : α) :
    (dictGet? d k).isSome ↔ k ∈ dictKeys d := by
  induction d with
  | nil => simp [dictGet?, dictKeys]
  | cons p rest ih =>
    by_cases hpk : p.1 = k
    · simp [dictGet?, dictKeys, hpk]
    · have : ¬ k = p.1 := fun h => hpk h.symm
      simp [dictGet?, dictKeys, hpk, this, ih]

theorem dictGet?_mapped_keys {α β : Type} [DecidableEq α]
    (keys : List α) (f : α → β) (k : α) :
    dictGet? (keys.map (fun v => (v, f v))) k =
      if k ∈ keys then some (f k) else none := by
  induction keys with
  | nil => simp [dictGet?]
  | cons a rest ih =>
    by_cases hak : a = k
    · subst hak
      simp [dictGet?]
    · have : ¬ k = a := fun h => hak h.symm
      simp [dictGet?, hak, this, ih]

theorem dictGet?_append {α β : Type} [DecidableEq α]
    (a b : List (α × β)) (k : α) :
    dictGet? (a ++ b) k = (dictGet? a k).or (dictGet? b k) := by
  induction a with
  | nil => simp [dictGet?]
  | cons p rest ih =>
    by_cases hpk : p.1 = k <;> simp [dictGet?, hpk, ih]

theorem buildAnswerMapAux_eq_groupFold (rows : List VarValuesRow)
    (current : Option QCode) (acc : List (QCode × List (ACode × Label))) :
    buildAnswerMapAux rows current acc =
      (forwardFillSpec rows current).map (groupFold acc) := by
  induction rows generalizing current acc with
  | nil => simp [buildAnswerMapAux, forwardFillSpec, groupFold]
  | cons r rest ih =>
    match hq : r.question_code, hc : current with
    | some q, _ =>
      simp only [buildAnswerMapAux, forwardFillSpec, hq, ih, Option.map_map]
      rfl
    | none, some q =>
      simp only [buildAnswerMapAux, forwardFillSpec, hq, ih, Option.map_map]
      rfl
    | none, none =>
      simp [buildAnswerMapAux, forwardFillSpec, hq]

theorem innerGet_groupStep (acc : List (QCode × List (ACode × Label)))
    (t : QCode × ACode × Label) (q : QCode) (ac : ACode) :
    innerGet (groupStep acc t) q ac =
      if t.1 = q ∧ t.2.1 = ac then some t.2.2 else innerGet acc q ac := by
  unfold innerGet groupStep
  by_cases hq : t.1 = q
  · subst hq
    rw [dictGet?_insert, if_pos rfl, Option.some_bind, dictGet?_insert]
    by_cases hac : t.2.1 = ac
    · rw [if_pos hac.symm, if_pos ⟨rfl, hac⟩]
    · rw [if_neg (fun h => hac h.symm), if_neg (fun h => hac h.2)]
      cases hbase : dictGet? acc t.1 with
      | none => simp [hbase, dictGet?]
      | some inner => simp [hbase]
  · rw [dictGet?_insert, if_neg (fun h => hq h.symm), if_neg (fun h => hq h.1)]

theorem lastBinding_cons (t : QCode × ACode × Label)
    (res : List (QCode × ACode × Label)) (q : QCode) (ac : ACode) :
    lastBinding (t :: res) q ac =
      (lastBinding res q ac).or
        (if t.1 = q ∧ t.2.1 = ac then some t.2.2 else none) := by
  unfold lastBinding
  by_cases hq : t.1 = q
  · rw [List.filter_cons_of_pos (by simp [hq]), List.map_cons, List.reverse_cons,
      dictGet?_append]
    congr 1
    by_cases hac : t.2.1 = ac
    · simp [dictGet?, hac, hq]
    · have hac' : ¬ ac = t.2.1 := fun h => hac h.symm
      simp [dictGet?, hq, hac, hac']
  · rw [List.filter_cons_of_neg (by simp [hq]), if_neg (fun h => hq h.1),
      Option.or_none]

theorem innerGet_groupFold (res : List (QCode × ACode × Label))
    (acc : List (QCode × List (ACode × Label))) (q : QCode) (ac : ACode) :
    innerGet (groupFold acc res) q ac =
      (lastBinding res q ac).or (innerGet acc q ac) := by
  induction res generalizing acc with
  | nil => simp [groupFold, lastBinding, dictGet?]
  | cons t rest ih =>
    have step : groupFold acc (t :: rest) = groupFold (groupStep acc t) rest := rfl
    rw [step, ih, lastBinding_cons, Option.or_assoc]
    congr 1
    rw [innerGet_groupStep]
    by_cases h : t.1 = q ∧ t.2.1 = ac
    · simp [h]
    · simp [h]

theorem mem_dictKeys_groupFold (res : List (QCode × ACode × Label))
    (acc : List (QCode × List (ACode × Label))) (q : QCode) :
    q ∈ dictKeys (groupFold acc res) ↔
      q ∈ dictKeys acc ∨ q ∈ res.map (fun t => t.1) := by
  induction res generalizing acc with
  | nil => simp [groupFold]
  | cons t rest ih =>
    have step : groupFold acc (t :: rest) = groupFold (groupStep acc t) rest := rfl
    rw [step, ih]
    unfold groupStep
    rw [mem_dictKeys_insert]
    simp only [List.map_cons, List.mem_cons]
    tauto

theorem dictKeys_append {α β : Type} (a b : List (α × β)) :
    dictKeys (a ++ b) = dictKeys a ++ dictKeys b := by
  simp [dictKeys]

theorem dictInsert_of_not_mem {α β : Type} [DecidableEq α]
    (d : List (α × β)) (k : α) (v : β) (h : k ∉ dictKeys d) :
    dictInsert d k v = d ++ [(k, v)] := by
  induction d with
  | nil => simp [dictInsert]
  | cons p rest ih =>
    simp only [dictKeys, List.map_cons, List.mem_cons] at h
    push_neg at h
    have hne : ¬ p.1 = k := fun hp => h.1 hp.symm
    simp only [dictInsert, hne, if_false, List.cons_append, List.cons.injEq, true_and]
    exact ih (by simpa [dictKeys] using h.2)

theorem buildMultiAux_ok (labels : List (QCode × Label)) (row : Row)
    (codes : List QCode) (acc : List (Label × Int))
    (hl : ∀ c ∈ codes, (dictGet? labels c).isSome)
    (hv : ∀ c ∈ codes, (dictGet? row c).isSome)
    (hnd : (dictKeys acc ++ codes.filterMap (fun c => dictGet? labels c)).Nodup) :
    buildMultiAux labels row codes acc = .ok (acc ++ multiPairs labels row codes) := by
  induction codes generalizing acc with
  | nil => simp [buildMultiAux, multiPairs]
  | cons c rest ih =>
    obtain ⟨l, hlc⟩ := Option.isSome_iff_exists.mp (hl c (by simp))
    obtain ⟨v, hvc⟩ := Option.isSome_iff_exists.mp (hv c (by simp))
    have hfm : List.filterMap (fun c => dictGet? labels c) (c :: rest) =
        l :: List.filterMap (fun c => dictGet? labels c) rest := by
      simp [List.filterMap_cons, hlc]
    rw [hfm] at hnd
    have hlm : l ∉ dictKeys acc := by
      rcases List.nodup_append.mp hnd with ⟨-, -, hdisj⟩
      exact fun hmem => hdisj hmem (by simp)
    have hins : dictInsert acc l v = acc ++ [(l, v)] :=
      dictInsert_of_not_mem acc l v hlm
    have hnd' : (dictKeys (acc ++ [(l, v)]) ++
        List.filterMap (fun c => dictGet? labels c) rest).Nodup := by
      rw [dictKeys_append, List.append_assoc]
      simpa [dictKeys] using hnd
    have hrec := ih (acc ++ [(l, v)]) (fun c hc => hl c (by simp [hc]))
      (fun c hc => hv c (by simp [hc])) hnd'
    have hpairs : multiPairs labels row (c :: rest) =
        (l, v) :: multiPairs labels row rest := by
      simp [multiPairs, List.filterMap_cons, hlc, hvc]
    rw [hpairs]
    simp only [buildMultiAux, hlc, hvc]
    rw [hins, hrec, List.append_assoc]
    rfl

theorem multiPairs_map_fst (labels : List (QCode × Label)) (row : Row)
    (codes : List QCode)
    (hv : ∀ c ∈ codes, (dictGet? row c).isSome) :
    (multiPairs labels row codes).map Prod.fst =
      codes.filterMap (fun c => dictGet? labels c) := by
  induction codes with
  | nil => simp [multiPairs]
  | cons c rest ih =>
    obtain ⟨v, hvc⟩ := Option.isSome_iff_exists.mp (hv c (by simp))
    have ih' := ih (fun c hc => hv c (by simp [hc]))
    cases hlc : dictGet? labels c with
    | none =>
      have h1 : multiPairs labels row (c :: rest) = multiPairs labels row rest := by
        simp [multiPairs, List.filterMap_cons, hlc]
      have h2 : List.filterMap (fun c => dictGet? labels c) (c :: rest) =
          List.filterMap (fun c => dictGet? labels c) rest := by
        simp [List.filterMap_cons, hlc]
      rw [h1, h2, ih']
    | some l =>
      have h1 : multiPairs labels row (c :: rest) =
          (l, v) :: multiPairs labels row rest := by
        simp [multiPairs, List.filterMap_cons, hlc, hvc]
      have h2 : List.filterMap (fun c => dictGet? labels c) (c :: rest) =
          l :: List.filterMap (fun c => dictGet? labels c) rest := by
        simp [List.filterMap_cons, hlc]
      rw [h1, h2, List.map_cons, ih']

theorem mem_multiPairs (labels : List (QCode × Label)) (row : Row)
    (codes : List QCode) (c : QCode) (l : Label) (v : Int)
    (hc : c ∈ codes) (hl : dictGet? labels c = some l)
    (hv : dictGet? row c = some v) :
    (l, v) ∈ multiPairs labels row codes :=
  List.mem_filterMap.mpr ⟨c, hc, by simp [hl, hv]⟩

theorem value_unique_of_nodup_fst {m : List (Label × Int)}
    (hnd : (m.map Prod.fst).Nodup) {l : Label} {v v' : Int}
    (h : (l, v) ∈ m) (h' : (l, v') ∈ m) : v = v' := by
  induction m with
  | nil => cases h
  | cons p rest ih =>
    simp only [List.map_cons, List.nodup_cons] at hnd
    rcases List.mem_cons.mp h with h1 | h1 <;>
      rcases List.mem_cons.mp h' with h2 | h2
    · exact congrArg Prod.snd (h1.trans h2.symm)
    · exfalso
      apply hnd.1
      have hl1 : l = p.1 := congrArg Prod.fst h1
      rw [← hl1]
      exact List.mem_map_of_mem Prod.fst h2
    · exfalso
      apply hnd.1
      have hl2 : l = p.1 := congrArg Prod.fst h2
      rw [← hl2]
      exact List.mem_map_of_mem Prod.fst h1
    · exact ih hnd.2 h1 h2

theorem strStartsWith_iff (s p : String) :
    strStartsWith s p = true ↔ p.data <+: s.data := by
  simp [strStartsWith, List.isPrefixOf_iff_prefix]

theorem strStartsWith_self (s : String) : strStartsWith s s = true :=
  (strStartsWith_iff s s).mpr (List.prefix_refl _)

theorem mem_subquestion_codes (pr : PollResults) (question_code q : QCode) :
    q ∈ pr.subquestion_codes question_code ↔
      q ∈ dictKeys pr.map_question_code_to_label ∧
        strStartsWith q question_code = true := by
  simp [PollResults.subquestion_codes, List.mem_filter]

theorem subquestion_codes_label_isSome (pr : PollResults) (question_code : QCode)
    (c : QCode) (hc : c ∈ pr.subquestion_codes question_code) :
    (dictGet? pr.map_question_code_to_label c).isSome := by
  rw [dictGet?_isSome_iff_mem]
  exact ((mem_subquestion_codes pr question_code c).mp hc).1

theorem self_mem_subquestion_codes (pr : PollResults) (question_code : QCode)
    (h : question_code ∈ dictKeys pr.map_question_code_to_label) :
    question_code ∈ pr.subquestion_codes question_code :=
  (mem_subquestion_codes pr question_code question_code).mpr
    ⟨h, strStartsWith_self question_code⟩

theorem buildVoterIndexAux_keys (rows : List Row) (acc : List (Int × Row))
    (idx : List (Int × Row))
    (h : buildVoterIndexAux rows acc = some idx)
    (hnd : (dictKeys acc ++ rows.filterMap (fun r => dictGet? r "id")).Nodup) :
    dictKeys idx = dictKeys acc ++ rows.filterMap (fun r => dictGet? r "id") := by
  induction rows generalizing acc with
  | nil =>
    simp only [buildVoterIndexAux, Option.some.injEq] at h
    simp [← h]
  | cons r rest ih =>
    cases hid : dictGet? r "id" with
    | none => simp [buildVoterIndexAux, hid] at h
    | some i =>
      have hfm : List.filterMap (fun r => dictGet? r "id") (r :: rest) =
          i :: List.filterMap (fun r => dictGet? r "id") rest := by
        simp [List.filterMap_cons, hid]
      rw [hfm] at hnd ⊢
      have him : i ∉ dictKeys acc := by
        rcases List.nodup_append.mp hnd with ⟨-, -, hdisj⟩
        exact fun hmem => hdisj hmem (by simp)
      have hins : dictInsert acc i r = acc ++ [(i, r)] :=
        dictInsert_of_not_mem acc i r him
      have h' : buildVoterIndexAux rest (acc ++ [(i, r)]) = some idx := by
        simpa [buildVoterIndexAux, hid, hins] using h
      have hnd' : (dictKeys (acc ++ [(i, r)]) ++
          List.filterMap (fun r => dictGet? r "id") rest).Nodup := by
        rw [dictKeys_append, List.append_assoc]
        simpa [dictKeys] using hnd
      rw [ih (acc ++ [(i, r)]) h' hnd', dictKeys_append, List.append_assoc]
      rfl

theorem buildMultiAux_error (labels : List (QCode × Label)) (row : Row)
    (codes : List QCode) (acc : List (Label × Int)) (e : PollError)
    (h : buildMultiAux labels row codes acc = .error e) :
    ∃ c, e = .keyNotFound c := by
  induction codes generalizing acc with
  | nil => simp [buildMultiAux] at h
  | cons c rest ih =>
    cases hlc : dictGet? labels c with
    | none =>
      simp only [buildMultiAux, hlc, Except.error.injEq] at h
      exact ⟨c, h.symm⟩
    | some l =>
      cases hvc : dictGet? row c with
      | none =>
        simp only [buildMultiAux, hlc, hvc, Except.error.injEq] at h
        exact ⟨c, h.symm⟩
      | some v =>
        simp only [buildMultiAux, hlc, hvc] at h
        exact ih _ h

/-- Evaluation of `get_voter_answer` on the multi-answer branch, when
every sub-question value is present and the sub-question labels are
distinct (so the dict comprehension loses no binding). -/
theorem get_voter_answer_multi (pr : PollResults) (vid : Int) (row : Row)
    (question_code : QCode) (voter_index : Nat)
    (hrow : dictGet? pr.map_voter_id_to_closed_answers vid = some row)
    (hcol : dictGet? row question_code = none)
    (hsub : pr.subquestion_codes question_code ≠ [])
    (hv : ∀ c ∈ pr.subquestion_codes question_code, (dictGet? row c).isSome)
    (hnd : (pr.subquestion_labels question_code).Nodup) :
    pr.get_voter_answer question_code voter_index (some vid) =
      .ok (.multi (multiPairs pr.map_question_code_to_label row
        (pr.subquestion_codes question_code))) := by
  have hlen : (pr.subquestion_codes question_code).length > 0 :=
    List.length_pos.mpr hsub
  have hbuild := buildMultiAux_ok pr.map_question_code_to_label row
    (pr.subquestion_codes question_code) []
    (fun c hc => subquestion_codes_label_isSome pr question_code c hc)
    hv (by simpa [dictKeys, PollResults.subquestion_labels] using hnd)
  simp [PollResults.get_voter_answer, PollResults.voter_id, hrow, hcol, hlen,
    hbuild]

theorem dictGet?_frequencySeries (rows : List Row) (question_code : QCode)
    (v : ACode) :
    dictGet? (frequencySeries rows question_code) v =
      if 0 < (columnValues rows question_code).count v
      then some (round2 (((columnValues rows question_code).count v : ℚ) /
        (rows.length : ℚ) * 100))
      else none := by
  have hiff : v ∈ (columnValues rows question_code).dedup.insertionSort
      (fun a b => a ≤ b) ↔ 0 < (columnValues rows question_code).count v := by
    rw [List.mem_insertionSort, List.mem_dedup, List.count_pos_iff]
  simp only [frequencySeries]
  rw [dictGet?_mapped_keys]
  simp only [hiff]

theorem voter_id_error (pr : PollResults) (voter_index : Nat) (vid : Option Int)
    (e : PollError) (h : pr.voter_id voter_index vid = .error e) :
    ∃ i, e = .indexOutOfRange i := by
  unfold PollResults.voter_id at h
  cases vid with
  | some v => cases h
  | none =>
    cases hg : pr.voter_ids.get? voter_index with
    | some v => rw [hg] at h; cases h
    | none =>
      rw [hg] at h
      injection h with h'
      exact ⟨voter_index, h'.symm⟩

theorem get_voter_answer_cannotFind_inv (pr : PollResults) (qc : QCode)
    (voter_index : Nat) (vid : Option Int) (v : Int) (q' : QCode)
    (h : pr.get_voter_answer qc voter_index vid =
      .error (.cannotFindAnswer v q')) :
    pr.subquestion_codes qc = [] ∧ q' = qc := by
  unfold PollResults.get_voter_answer at h
  cases hres : pr.voter_id voter_index vid with
  | error e =>
    rw [hres] at h
    simp only [] at h
    obtain ⟨i, rfl⟩ := voter_id_error pr voter_index vid e hres
    simp at h
  | ok w =>
    rw [hres] at h
    simp only [] at h
    cases hrow : dictGet? pr.map_voter_id_to_closed_answers w with
    | none => rw [hrow] at h; simp at h
    | some row =>
      rw [hrow] at h
      simp only [] at h
      cases hcol : dictGet? row qc with
      | some raw =>
        rw [hcol] at h
        simp only [] at h
        cases hin : dictGet? pr.map_question_code_to_map_answer_code_to_label qc with
        | none => rw [hin] at h; simp at h
        | some inner =>
          rw [hin] at h
          simp only [] at h
          cases hl : dictGet? inner raw with
          | none => rw [hl] at h; simp at h
          | some lab => rw [hl] at h; simp at h
      | none =>
        rw [hcol] at h
        simp only [] at h
        by_cases hlen : (pr.subquestion_codes qc).length > 0
        · rw [if_pos hlen] at h
          cases hb : buildMultiAux pr.map_question_code_to_label row
              (pr.subquestion_codes qc) [] with
          | error e' =>
            rw [hb] at h
            simp only [] at h
            obtain ⟨c', rfl⟩ := buildMultiAux_error _ _ _ _ _ hb
            simp at h
          | ok m => rw [hb] at h; simp at h
        · rw [if_neg hlen] at h
          injection h with h'
          refine ⟨?_, ?_⟩
          · exact List.length_eq_zero.mp (Nat.eq_zero_of_not_pos hlen)
          · cases h'
            rfl

/-- C1: for every voter id present in the closed-answer index and every
question code that is a column of that voter's closed-answers row,
`get_voter_answer` returns the label obtained by translating the
voter's stored raw answer code through the
(question-code, answer-code) → label mapping. -/
theorem C1_single_answer_translation (pr : PollResults) (vid : Int) (row : Row)
    (question_code : QCode) (raw : Int) (inner : List (ACode × Label))
    (label : Label) (voter_index : Nat)
    (hrow : dictGet? pr.map_voter_id_to_closed_answers vid = some row)
    (hraw : dictGet? row question_code = some raw)
    (hinner : dictGet? pr.map_question_code_to_map_answer_code_to_label
      question_code = some inner)
    (hlabel : dictGet? inner raw = some label) :
    pr.get_voter_answer question_code voter_index (some vid) =
      .ok (.single label) := by
  simp [PollResults.get_voter_answer, PollResults.voter_id, hrow, hraw,
    hinner, hlabel]

/-- C1 witness: with variable-values rows `(Q2,1,PartyA),(,2,PartyB)` and
voter 300 holding `Q2 = 2`, the answer is `PartyB`. -/
theorem C1_single_answer_translation_witness :
    prEx1.get_voter_answer "Q2" 0 (some 300) = .ok (.single "PartyB") :=
  C1_single_answer_translation prEx1 300 [("id", 300), ("Q2", 2)] "Q2" 2
    [(1, "PartyA"), (2, "PartyB")] "PartyB" 0 (by rfl) (by rfl) (by rfl) (by rfl)

/-- C2: when the nested question-code → (answer-code → label) mapping is
built from the variable-values table, a row with a blank leading cell is
assigned to the most recently seen non-blank question code
(forward-fill), and for every question code the inner mapping holds
exactly the answer-code/label pairs of the rows resolved to that code
(a later duplicate answer code overwriting an earlier one). -/
theorem C2_forward_fill_grouping (rows : List VarValuesRow)
    (m : List (QCode × List (ACode × Label)))
    (h : buildAnswerMap rows = some m) :
    ∃ resolved, forwardFillSpec rows none = some resolved ∧
      (∀ q ac, innerGet m q ac = lastBinding resolved q ac) ∧
      (∀ q, q ∈ dictKeys m ↔ q ∈ resolved.map (fun t => t.1)) := by
  rw [buildAnswerMap, buildAnswerMapAux_eq_groupFold] at h
  cases hff : forwardFillSpec rows none with
  | none => rw [hff] at h; cases h
  | some resolved =>
    rw [hff] at h
    have hm : groupFold [] resolved = m := by
      injection h
    refine ⟨resolved, rfl, ?_, ?_⟩
    · intro q ac
      rw [← hm, innerGet_groupFold]
      simp [innerGet, dictGet?]
    · intro q
      rw [← hm, mem_dictKeys_groupFold]
      simp [dictKeys]

/-- C2 witness: the rows `(Q2,1,PartyA),(,2,PartyB)` build the single
block `Q2 ↦ {1 ↦ PartyA, 2 ↦ PartyB}`, the blank row continuing `Q2`. -/
theorem C2_forward_fill_grouping_witness :
    ∃ resolved, forwardFillSpec varValuesEx none = some resolved ∧
      (∀ q ac, innerGet [("Q2", [(1, "PartyA"), (2, "PartyB")])] q ac =
        lastBinding resolved q ac) ∧
      (∀ q, q ∈ dictKeys
          [(("Q2" : QCode), [((1 : ACode), ("PartyA" : Label)), (2, "PartyB")])] ↔
        q ∈ resolved.map (fun t => t.1)) :=
  C2_forward_fill_grouping varValuesEx
    [("Q2", [(1, "PartyA"), (2, "PartyB")])] (by rfl)

/-- C3: for every resolvable voter and every question code that is
neither a column of the voter's closed-answers row nor has any
sub-question, `get_voter_answer` fails with the explicit
cannot-find-answer error. -/
theorem C3_question_not_found (pr : PollResults) (voter_index : Nat)
    (vid : Option Int) (v : Int) (row : Row) (question_code : QCode)
    (hres : pr.voter_id voter_index vid = .ok v)
    (hrow : dictGet? pr.map_voter_id_to_closed_answers v = some row)
    (hcol : dictGet? row question_code = none)
    (hsub : pr.subquestion_codes question_code = []) :
    pr.get_voter_answer question_code voter_index vid =
      .error (.cannotFindAnswer v question_code) := by
  simp [PollResults.get_voter_answer, hres, hrow, hcol, hsub]

/-- C3 witness: voter 300 exists but code `Z9` is neither a column nor a
prefix of any known code, so the lookup fails explicitly. -/
theorem C3_question_not_found_witness :
    prEx1.get_voter_answer "Z9" 0 (some 300) =
      .error (.cannotFindAnswer 300 "Z9") :=
  C3_question_not_found prEx1 0 (some 300) 300 [("id", 300), ("Q2", 2)] "Z9"
    (by rfl) (by rfl) (by rfl) (by rfl)

/-- C9: `subquestion_codes c` returns exactly the known question codes
having `c` as a literal string prefix — so a code that is a textual
prefix of an unrelated code matches it as well. -/
theorem C9_subquestion_prefix_filter (pr : PollResults) (c : QCode) :
    pr.subquestion_codes c =
      (dictKeys pr.map_question_code_to_label).filter
        (fun q => strStartsWith q c) ∧
    (∀ q, q ∈ pr.subquestion_codes c ↔
      q ∈ dictKeys pr.map_question_code_to_label ∧ c.data <+: q.data) := by
  refine ⟨rfl, ?_⟩
  intro q
  rw [mem_subquestion_codes]
  simp [strStartsWith_iff]

/-- C9 witness: with known codes Q1 and Q10, the sub-questions of `Q1`
include the unrelated code `Q10` along with `Q1` itself. -/
theorem C9_subquestion_prefix_filter_witness :
    "Q10" ∈ prEx9.subquestion_codes "Q1" ∧
      "Q1" ∈ prEx9.subquestion_codes "Q1" :=
  ⟨((C9_subquestion_prefix_filter prEx9 "Q1").2 "Q10").mpr (by decide),
   ((C9_subquestion_prefix_filter prEx9 "Q1").2 "Q1").mpr (by decide)⟩

/-- C10: a question code that is a key of the question-label mapping is a
sub-question of itself (prefix matching is reflexive), so
`get_voter_answer` can never reach its cannot-find-answer branch for
such a code: when the code is not a column of the voter's row, the call
takes the multi-answer branch and either returns a mapping or fails with
a missing-key lookup. -/
theorem C10_no_cannot_find_for_known_codes (pr : PollResults) (qc : QCode)
    (hkey : qc ∈ dictKeys pr.map_question_code_to_label) :
    qc ∈ pr.subquestion_codes qc ∧
    (∀ voter_index vid v, pr.get_voter_answer qc voter_index vid ≠
      .error (.cannotFindAnswer v qc)) ∧
    (∀ vid row, dictGet? pr.map_voter_id_to_closed_answers vid = some row →
      dictGet? row qc = none →
      (∃ m, pr.get_voter_answer qc 0 (some vid) = .ok (.multi m)) ∨
      (∃ c, pr.get_voter_answer qc 0 (some vid) = .error (.keyNotFound c))) := by
  have hself := self_mem_subquestion_codes pr qc hkey
  have hne : pr.subquestion_codes qc ≠ [] := by
    intro h
    rw [h] at hself
    cases hself
  have hlen : (pr.subquestion_codes qc).length > 0 := List.length_pos.mpr hne
  refine ⟨hself, ?_, ?_⟩
  · intro voter_index vid v heq
    exact hne (get_voter_answer_cannotFind_inv pr qc voter_index vid v qc heq).1
  · intro vid row hrow hcol
    cases hb : buildMultiAux pr.map_question_code_to_label row
        (pr.subquestion_codes qc) [] with
    | ok m =>
      left
      exact ⟨m, by simp [PollResults.get_voter_answer, PollResults.voter_id,
        hrow, hcol, hlen, hb]⟩
    | error e =>
      obtain ⟨c', rfl⟩ := buildMultiAux_error _ _ _ _ _ hb
      right
      exact ⟨c', by simp [PollResults.get_voter_answer, PollResults.voter_id,
        hrow, hcol, hlen, hb]⟩

/-- C10 witness: `Q6_1` is a known code, hence its own sub-question, and
no call on it can produce the cannot-find-answer error. -/
theorem C10_no_cannot_find_for_known_codes_witness :
    "Q6_1" ∈ prEx4.subquestion_codes "Q6_1" ∧
    (∀ voter_index vid v, prEx4.get_voter_answer "Q6_1" voter_index vid ≠
      .error (.cannotFindAnswer v "Q6_1")) ∧
    (∀ vid row, dictGet? prEx4.map_voter_id_to_closed_answers vid = some row →
      dictGet? row "Q6_1" = none →
      (∃ m, prEx4.get_voter_answer "Q6_1" 0 (some vid) = .ok (.multi m)) ∨
      (∃ c, prEx4.get_voter_answer "Q6_1" 0 (some vid) =
        .error (.keyNotFound c))) :=
  C10_no_cannot_find_for_known_codes prEx4 "Q6_1" (by decide)

/-- C4: on a multi-answer question with all sub-question values present
and distinct labels, `get_voter_answer_rank` returns a permutation of
exactly the sub-question labels, ordered ascending by the voter's raw
value, and the underlying sort is stable for ties (the bindings with any
fixed value keep their original order). -/
theorem C4_rank_permutation_sorted_stable (pr : PollResults) (vid : Int)
    (row : Row) (question_code : QCode) (voter_index : Nat)
    (hrow : dictGet? pr.map_voter_id_to_closed_answers vid = some row)
    (hcol : dictGet? row question_code = none)
    (hsub : pr.subquestion_codes question_code ≠ [])
    (hv : ∀ c ∈ pr.subquestion_codes question_code, (dictGet? row c).isSome)
    (hnd : (pr.subquestion_labels question_code).Nodup) :
    ∃ S : List (Label × Int),
      pr.get_voter_answer_rank question_code voter_index (some vid) =
        .ok (S.map Prod.fst) ∧
      S.Perm (multiPairs pr.map_question_code_to_label row
        (pr.subquestion_codes question_code)) ∧
      (S.map Prod.fst).Perm (pr.subquestion_labels question_code) ∧
      S.Pairwise (fun a b => a.2 ≤ b.2) ∧
      (∀ v : Int, S.filter (fun p => p.2 = v) =
        (multiPairs pr.map_question_code_to_label row
          (pr.subquestion_codes question_code)).filter (fun p => p.2 = v)) := by
  classical
  haveI : IsTrans (Label × Int) (fun a b => a.2 ≤ b.2) :=
    ⟨fun _ _ _ h1 h2 => le_trans h1 h2⟩
  haveI : IsTotal (Label × Int) (fun a b => a.2 ≤ b.2) :=
    ⟨fun a b => Int.le_total a.2 b.2⟩
  have hget := get_voter_answer_multi pr vid row question_code 0 hrow hcol hsub hv hnd
  refine ⟨(multiPairs pr.map_question_code_to_label row
    (pr.subquestion_codes question_code)).insertionSort (fun a b => a.2 ≤ b.2),
    ?_, ?_, ?_, ?_, ?_⟩
  · simp [PollResults.get_voter_answer_rank, PollResults.voter_id, hget]
  · exact List.perm_insertionSort _ _
  · have hp := (List.perm_insertionSort (fun a b : Label × Int => a.2 ≤ b.2)
      (multiPairs pr.map_question_code_to_label row
        (pr.subquestion_codes question_code))).map Prod.fst
    rw [multiPairs_map_fst _ _ _ hv] at hp
    simpa [PollResults.subquestion_labels] using hp
  · exact List.sorted_insertionSort _ _
  · intro v
    have hc_pw : (List.filter (fun p => decide (p.2 = v))
        (multiPairs pr.map_question_code_to_label row
          (pr.subquestion_codes question_code))).Pairwise
        (fun a b : Label × Int => a.2 ≤ b.2) := by
      apply List.pairwise_of_forall_mem_list
      intro a ha b hb
      have ha2 : a.2 = v := by simpa using (List.mem_filter.mp ha).2
      have hb2 : b.2 = v := by simpa using (List.mem_filter.mp hb).2
      omega
    have hsubl := List.sublist_insertionSort hc_pw
      (List.filter_sublist
        (multiPairs pr.map_question_code_to_label row
          (pr.subquestion_codes question_code)))
    have hsubl2 := hsubl.filter (fun p => decide (p.2 = v))
    have hff : ∀ (l : List (Label × Int)),
        List.filter (fun p => decide (p.2 = v))
          (List.filter (fun p => decide (p.2 = v)) l) =
        List.filter (fun p => decide (p.2 = v)) l := by
      intro l
      rw [List.filter_filter]
      congr 1
      funext p
      rw [Bool.and_self]
    rw [hff] at hsubl2
    have hperm := (List.perm_insertionSort (fun a b : Label × Int => a.2 ≤ b.2)
      (multiPairs pr.map_question_code_to_label row
        (pr.subquestion_codes question_code))).filter
        (fun p => decide (p.2 = v))
    exact (hsubl2.eq_of_length hperm.length_eq.symm).symm

/-- C4 witness: with `Q6_1=2, Q6_2=1, Q6_3=3` and labels X, Y, Z the
ranking is `[Y, X, Z]`. -/
theorem C4_rank_permutation_sorted_stable_witness :
    prEx4.get_voter_answer_rank "Q6" 0 (some 300) = .ok ["Y", "X", "Z"] ∧
    (∃ S : List (Label × Int),
      prEx4.get_voter_answer_rank "Q6" 0 (some 300) = .ok (S.map Prod.fst) ∧
      S.Perm (multiPairs prEx4.map_question_code_to_label rowEx4
        (prEx4.subquestion_codes "Q6")) ∧
      (S.map Prod.fst).Perm (prEx4.subquestion_labels "Q6") ∧
      S.Pairwise (fun a b => a.2 ≤ b.2) ∧
      (∀ v : Int, S.filter (fun p => p.2 = v) =
        (multiPairs prEx4.map_question_code_to_label rowEx4
          (prEx4.subquestion_codes "Q6")).filter (fun p => p.2 = v))) :=
  ⟨by rfl,
   C4_rank_permutation_sorted_stable prEx4 300 rowEx4 "Q6" 0
     (by rfl) (by rfl) (by decide) (by decide) (by decide)⟩

/-- C5: on a multi-answer question with all sub-question values present
and distinct labels, `get_voter_answer_approval` returns a subset of the
sub-question labels, and a label is a member exactly when the voter's
raw value for the corresponding sub-question is strictly positive. -/
theorem C5_approval_membership (pr : PollResults) (vid : Int) (row : Row)
    (question_code : QCode) (voter_index : Nat)
    (hrow : dictGet? pr.map_voter_id_to_closed_answers vid = some row)
    (hcol : dictGet? row question_code = none)
    (hsub : pr.subquestion_codes question_code ≠ [])
    (hv : ∀ c ∈ pr.subquestion_codes question_code, (dictGet? row c).isSome)
    (hnd : (pr.subquestion_labels question_code).Nodup) :
    ∃ s : Finset Label,
      pr.get_voter_answer_approval question_code voter_index (some vid) =
        .ok s ∧
      (∀ l ∈ s, l ∈ pr.subquestion_labels question_code) ∧
      (∀ c ∈ pr.subquestion_codes question_code, ∀ l v,
        dictGet? pr.map_question_code_to_label c = some l →
        dictGet? row c = some v → (l ∈ s ↔ 0 < v)) := by
  classical
  have hget := get_voter_answer_multi pr vid row question_code 0 hrow hcol hsub hv hnd
  have hnfst : ((multiPairs pr.map_question_code_to_label row
      (pr.subquestion_codes question_code)).map Prod.fst).Nodup := by
    rw [multiPairs_map_fst _ _ _ hv]
    simpa [PollResults.subquestion_labels] using hnd
  refine ⟨(((multiPairs pr.map_question_code_to_label row
    (pr.subquestion_codes question_code)).filter
      (fun p => p.2 > 0)).map Prod.fst).toFinset, ?_, ?_, ?_⟩
  · simp [PollResults.get_voter_answer_approval, PollResults.voter_id, hget]
  · intro l hl
    simp only [List.mem_toFinset, List.mem_map] at hl
    obtain ⟨p, hp, hpl⟩ := hl
    have hpm : p.1 ∈ (multiPairs pr.map_question_code_to_label row
        (pr.subquestion_codes question_code)).map Prod.fst :=
      List.mem_map_of_mem _ (List.mem_filter.mp hp).1
    rw [multiPairs_map_fst _ _ _ hv] at hpm
    rw [← hpl]
    simpa [PollResults.subquestion_labels] using hpm
  · intro c hc l v hlc hvc
    have hmem : (l, v) ∈ multiPairs pr.map_question_code_to_label row
        (pr.subquestion_codes question_code) :=
      mem_multiPairs _ _ _ c l v hc hlc hvc
    constructor
    · intro hls
      simp only [List.mem_toFinset, List.mem_map] at hls
      obtain ⟨p, hp, hpl⟩ := hls
      obtain ⟨a, b⟩ := p
      simp only at hpl
      subst hpl
      have hpm := List.mem_filter.mp hp
      have hb0 : 0 < b := by simpa using hpm.2
      have hveq : b = v := value_unique_of_nodup_fst hnfst hpm.1 hmem
      omega
    · intro hv0
      simp only [List.mem_toFinset, List.mem_map]
      exact ⟨(l, v), List.mem_filter.mpr ⟨hmem, by simpa using hv0⟩, rfl⟩

/-- C5 witness: with `Q3_1=0, Q3_2=1, Q3_3=1` and labels X, Y, Z the
approval set is `{Y, Z}`. -/
theorem C5_approval_membership_witness :
    prEx5.get_voter_answer_approval "Q3" 0 (some 300) =
      .ok ({"Y", "Z"} : Finset Label) ∧
    (∃ s : Finset Label,
      prEx5.get_voter_answer_approval "Q3" 0 (some 300) = .ok s ∧
      (∀ l ∈ s, l ∈ prEx5.subquestion_labels "Q3") ∧
      (∀ c ∈ prEx5.subquestion_codes "Q3", ∀ l v,
        dictGet? prEx5.map_question_code_to_label c = some l →
        dictGet? rowEx5 c = some v → (l ∈ s ↔ 0 < v))) :=
  ⟨by rfl,
   C5_approval_membership prEx5 300 rowEx5 "Q3" 0
     (by rfl) (by rfl) (by decide) (by decide) (by decide)⟩

/-- C6: when `frequency_dict` succeeds on a filtered row set, its
frequency entries map each distinct raw answer code present in the
filtered rows to that code's row count divided by the number of
filtered rows, times 100, rounded to two decimal places — and no other
code has an entry. -/
theorem C6_frequency_entries (pr : PollResults) (question_code : QCode)
    (p : Row → Bool) (title : Option String) (fd : FreqDict)
    (h : pr.frequency_dict question_code (some p) title = .ok fd) :
    ∀ v : ACode, dictGet? fd.freqs v =
      if 0 < (columnValues (pr.results_closed_questions.filter p)
          question_code).count v
      then some (round2 (((columnValues (pr.results_closed_questions.filter p)
          question_code).count v : ℚ) /
        ((pr.results_closed_questions.filter p).length : ℚ) * 100))
      else none := by
  intro v
  unfold PollResults.frequency_dict at h
  cases hq : dictGet? pr.map_question_code_to_map_answer_code_to_label
      question_code with
  | none => rw [hq] at h; cases h
  | some inner =>
    rw [hq] at h
    simp only [] at h
    cases hmed : medianQ (columnValues (pr.results_closed_questions.filter p)
        question_code) with
    | none => rw [hmed] at h; cases h
    | some med =>
      rw [hmed] at h
      simp only [] at h
      by_cases hden : med.den = 1
      · rw [if_pos hden] at h
        cases hl : dictGet? inner med.num with
        | none => rw [hl] at h; cases h
        | some label =>
          rw [hl] at h
          injection h with h'
          rw [← h']
          exact dictGet?_frequencySeries
            (pr.results_closed_questions.filter p) question_code v
      · rw [if_neg hden] at h; cases h

/-- C6 witness: filtering religion==1 keeps 4 rows, 2 of which answered
code 1 for Q2, so the reported frequency of code 1 is 50.0. -/
theorem C6_frequency_entries_witness :
    prEx6.frequency_dict "Q2" (some religionFilter) none = .ok fdEx6 ∧
    dictGet? fdEx6.freqs 1 = some 50 := by
  have hfreq : frequencySeries
      (prEx6.results_closed_questions.filter religionFilter) "Q2" =
      [(1, 50), (3, 50)] := by
    simp only [frequencySeries]
    rw [show (columnValues (prEx6.results_closed_questions.filter
        religionFilter) "Q2").dedup.insertionSort (fun a b => a ≤ b) =
      ([1, 3] : List Int) from rfl]
    rw [show columnValues (prEx6.results_closed_questions.filter
        religionFilter) "Q2" = ([1, 1, 3, 3] : List Int) from rfl]
    rw [show (prEx6.results_closed_questions.filter religionFilter).length = 4
      from rfl]
    simp only [List.map_cons, List.map_nil]
    rw [show ([1, 1, 3, 3] : List Int).count 1 = 2 from rfl]
    rw [show ([1, 1, 3, 3] : List Int).count 3 = 2 from rfl]
    simp only [round2, round_eq]
    norm_num
  have hmed : medianQ (columnValues
      (prEx6.results_closed_questions.filter religionFilter) "Q2") = some 2 := by
    rw [show columnValues (prEx6.results_closed_questions.filter
        religionFilter) "Q2" = ([1, 1, 3, 3] : List Int) from rfl]
    simp only [medianQ]
    rw [show ([1, 1, 3, 3] : List Int).insertionSort (fun a b => a ≤ b) =
      [1, 1, 3, 3] from rfl]
    norm_num [List.get?]
  have hdict : prEx6.frequency_dict "Q2" (some religionFilter) none =
      .ok fdEx6 := by
    unfold PollResults.frequency_dict
    rw [show dictGet? prEx6.map_question_code_to_map_answer_code_to_label
      "Q2" = some [(1, "PartyA"), (2, "PartyB"), (3, "PartyC")] from rfl]
    simp only []
    rw [hmed]
    simp only []
    rw [if_pos (show (2 : ℚ).den = 1 from rfl)]
    rw [show dictGet? [((1 : ACode), ("PartyA" : Label)), (2, "PartyB"),
      (3, "PartyC")] (2 : ℚ).num = some "PartyB" from rfl]
    rw [hfreq]
    rfl
  refine ⟨hdict, ?_⟩
  have h := C6_frequency_entries prEx6 "Q2" religionFilter none fdEx6 hdict 1
  rw [h]
  rw [if_pos (by decide)]
  rw [show columnValues (prEx6.results_closed_questions.filter
      religionFilter) "Q2" = ([1, 1, 3, 3] : List Int) from rfl]
  rw [show (prEx6.results_closed_questions.filter religionFilter).length = 4
    from rfl]
  rw [show ([1, 1, 3, 3] : List Int).count 1 = 2 from rfl]
  simp only [round2, round_eq]
  norm_num

/-- C7 counterexample: on a filter matching zero rows, the division
stage of `frequency_dict` does not fault — the frequency series is
simply empty — and the failure that does occur is the missing-key
lookup when the median of the empty column is translated to a label,
not a division-by-zero condition. -/
theorem C7_zero_rows_counterexample :
    frequencySeries (prEx6.results_closed_questions.filter (fun _ => false))
      "Q2" = [] ∧
    prEx6.frequency_dict "Q2" (some (fun _ => false)) none =
      .error (.medianKeyNotFound "Q2") :=
  ⟨by rfl, by rfl⟩

/-- C7 (amended): for a question code with an answer-label entry, a
filter matching zero rows makes `frequency_dict` fail terminally — but
with the median-label missing-key error, the division stage having
produced an empty series without fault. -/
theorem C7_empty_filter_median_error (pr : PollResults) (question_code : QCode)
    (p : Row → Bool) (title : Option String) (inner : List (ACode × Label))
    (hq : dictGet? pr.map_question_code_to_map_answer_code_to_label
      question_code = some inner)
    (hempty : pr.results_closed_questions.filter p = []) :
    pr.frequency_dict question_code (some p) title =
      .error (.medianKeyNotFound question_code) ∧
    frequencySeries (pr.results_closed_questions.filter p) question_code = [] := by
  constructor
  · unfold PollResults.frequency_dict
    rw [hq]
    simp only []
    rw [hempty]
    simp [columnValues, medianQ]
  · rw [hempty]
    rfl

/-- C7 witness: the concrete all-false filter on the population of 100
discharges the amended statement. -/
theorem C7_empty_filter_median_error_witness :
    prEx6.frequency_dict "Q2" (some (fun r => dictGet? r "religion" == some 9))
        none = .error (.medianKeyNotFound "Q2") ∧
    frequencySeries (prEx6.results_closed_questions.filter
      (fun r => dictGet? r "religion" == some 9)) "Q2" = [] :=
  C7_empty_filter_median_error prEx6 "Q2"
    (fun r => dictGet? r "religion" == some 9) none
    [(1, "PartyA"), (2, "PartyB"), (3, "PartyC")] (by rfl) (by rfl)

/-- C8: resolving a voter by positional index `i` returns the i-th
voter id in load order (the order of rows of the closed-questions
table, whose ids are assumed distinct), and an explicit voter id always
wins over the index. -/
theorem C8_voter_resolution (rows : List Row) (idx : List (Int × Row))
    (pr : PollResults)
    (hidx : buildVoterIndex rows = some idx)
    (hpr : pr.voter_ids = dictKeys idx)
    (hnd : (rows.filterMap (fun r => dictGet? r "id")).Nodup) :
    pr.voter_ids = rows.filterMap (fun r => dictGet? r "id") ∧
    (∀ i (hi : i < (rows.filterMap (fun r => dictGet? r "id")).length),
      pr.voter_id i none =
        .ok ((rows.filterMap (fun r => dictGet? r "id")).get ⟨i, hi⟩)) ∧
    (∀ i v, pr.voter_id i (some v) = .ok v) := by
  have hkeys : dictKeys idx = rows.filterMap (fun r => dictGet? r "id") :=
    buildVoterIndexAux_keys rows [] idx hidx (by simpa [dictKeys] using hnd)
  have hv : pr.voter_ids = rows.filterMap (fun r => dictGet? r "id") :=
    hpr.trans hkeys
  refine ⟨hv, ?_, fun i v => rfl⟩
  intro i hi
  unfold PollResults.voter_id
  rw [hv, List.get?_eq_get hi]

/-- C8 witness: with rows for ids 300 then 301, index 0 resolves to 300,
index 1 to 301, and an explicit id always wins. -/
theorem C8_voter_resolution_witness :
    prEx8.voter_ids = closedRowsEx8.filterMap (fun r => dictGet? r "id") ∧
    (∀ i (hi : i < (closedRowsEx8.filterMap
        (fun r => dictGet? r "id")).length),
      prEx8.voter_id i none =
        .ok ((closedRowsEx8.filterMap (fun r => dictGet? r "id")).get ⟨i, hi⟩)) ∧
    (∀ i v, prEx8.voter_id i (some v) = .ok v) :=
  C8_voter_resolution closedRowsEx8 ((buildVoterIndex closedRowsEx8).getD [])
    prEx8 (by rfl) (by rfl) (by decide)

end Panel4All
